import Mathlib

/-!
Shallow embedding of the markdown content repository backend
(`cleanRoute`, `getContent`, `parseMDLocal`, `updateContent`,
`getContentByRoute`, `getContentMeta`) and proofs of the spec's claims.

Strings are Lean `String`s (lists of unicode scalar values).  The JS
regular-expression class `\s` is modelled by `jsWhitespace`, listing the
ECMAScript whitespace and line-terminator code points.  `toLowerCase` is
modelled by `Char.toLower` (the basic-latin case mapping) applied
pointwise.  External collaborators (the `front-matter` parser and the
unified markdown pipeline) are parameters `fmF` and `render`; the
`@binaris/shift-db` store is a state `Option Collection` threaded
explicitly, whose `update` applies a mutator atomically and aborts (state
unchanged) when the mutator throws.
-/

/-- ECMAScript `\s`: whitespace and line terminator code points. -/
def jsWhitespace (c : Char) : Bool :=
  decide (c.toNat = 9 ∨ c.toNat = 10 ∨ c.toNat = 11 ∨ c.toNat = 12 ∨ c.toNat = 13 ∨
    c.toNat = 32 ∨ c.toNat = 160 ∨ c.toNat = 5760 ∨
    (8192 ≤ c.toNat ∧ c.toNat ≤ 8202) ∨ c.toNat = 8232 ∨ c.toNat = 8233 ∨
    c.toNat = 8239 ∨ c.toNat = 8287 ∨ c.toNat = 12288 ∨ c.toNat = 65279)

/-- One pass of `String.prototype.replace(/\s+/g, '-')`: the flag records
whether we are inside a whitespace run that has already emitted its hyphen. -/
def replaceWsAux : Bool → List Char → List Char
  | _, [] => []
  | inRun, c :: cs =>
    if jsWhitespace c then
      if inRun then replaceWsAux true cs else '-' :: replaceWsAux true cs
    else c :: replaceWsAux false cs

/-- `someRoute.replace(/\s+/g, '-')` on the underlying character list. -/
def replaceWs (l : List Char) : List Char :=
  replaceWsAux false l

/-- `cleanRoute` from the source: replace whitespace runs by `-`, then
lower-case (`.replace(/\s+/g, '-').toLowerCase()`). -/
def cleanRoute (s : String) : String :=
  ⟨(replaceWs s.data).map Char.toLower⟩

/-- Spec-side formulation of the normalizer ("replaces any run of whitespace
with a single hyphen, lower-cases the result"): each maximal whitespace run,
located with `dropWhile`, becomes a single hyphen. -/
def collapseRuns : List Char → List Char
  | [] => []
  | c :: cs =>
    if jsWhitespace c then '-' :: collapseRuns (cs.dropWhile jsWhitespace)
    else c :: collapseRuns cs
termination_by l => l.length
decreasing_by
  · have h := (List.dropWhile_sublist jsWhitespace (l := cs)).length_le
    simp only [List.length_cons]
    omega
  · simp only [List.length_cons]
    omega

/-- The route normalizer as the spec words it. -/
def specNormalize (s : String) : String :=
  ⟨(collapseRuns s.data).map Char.toLower⟩

-- Error taxonomy from the spec (§7); the source only ever constructs the
-- first three codes.
inductive ErrCode where
  | CONTENT_MISSING_FIELD
  | CONTENT_HAS_CHANGED
  | ROUTE_NOT_FOUND
  | UNKNOWN_ERROR
  | MALFORMED_CONTENT
  | RENDER_FAILURE
deriving DecidableEq

/-- The structured error value `{type: 'error', code, message}`. -/
structure ErrValue where
  code : ErrCode
  message : String
deriving DecidableEq

/-- Frontmatter attributes; only the `route` key is interpreted by
the backend (`attributes.route`, possibly absent). -/
structure Attributes where
  route : Option String
deriving DecidableEq

/-- One stored content record: frontmatter `attributes`, rendered HTML
`parsed`, and the original `raw` markdown. -/
structure ContentRecord where
  attributes : Attributes
  parsed : String
  raw : String
deriving DecidableEq

/-- Result of the external `front-matter` parser: attributes plus body. -/
structure FMResult where
  attributes : Attributes
  body : String

/-- A JS object mapping route keys to records, with key insertion order. -/
abbrev Collection := List (String × ContentRecord)

/-- Outcome of a JS call: normal return or a thrown exception. -/
inductive JsOutcome (α : Type) where
  | ok (a : α)
  | thrown (msg : String)
deriving DecidableEq

/-- `obj[k]` on a collection object. -/
def getKey : Collection → String → Option ContentRecord
  | [], _ => none
  | (k, v) :: rest, q => if k = q then some v else getKey rest q

/-- `obj[k] = v`: replace in place when the key exists, append otherwise
(JS object keys are unique and keep insertion order). -/
def setKey : Collection → String → ContentRecord → Collection
  | [], k, v => [(k, v)]
  | (k', v') :: rest, k, v =>
    if k' = k then (k, v) :: rest else (k', v') :: setKey rest k v

/-- `parseMDLocal`: run the frontmatter parser, render the body through the
markdown pipeline, return attributes + rendered + original raw text. -/
def parseMDLocal (fmF : String → FMResult) (render : String → String)
    (markdownContent : String) : ContentRecord :=
  { attributes := (fmF markdownContent).attributes
    parsed := render (fmF markdownContent).body
    raw := markdownContent }

/-- Result of one run of the mutator passed to the store's `update`:
either the next collection, or a throw together with the value the closure
variable `potentialError` holds at the moment of the throw (`none` models
the variable still being `undefined`, as happens when the record access
`copied[clean].raw` raises a `TypeError`). -/
inductive MutatorResult where
  | ok (next : Collection)
  | err (potentialError : Option ErrValue) (msg : String)
deriving DecidableEq

/-- Message of the `CONTENT_MISSING_FIELD` error in the source. -/
def missingFieldMsg : String :=
  "Content: must contain \"route\" field in frontmatter"

/-- Message of the `CONTENT_HAS_CHANGED` error in the source. -/
def hasChangedMsg (clean : String) : String :=
  "Content at route: \"" ++ clean ++ "\" has been modified since reading"

/-- Message of the `TypeError` raised by `copied[clean].raw` when no record
is stored at `clean` (the JS property access on `undefined`). -/
def rawOfUndefinedMsg : String :=
  "Cannot read property raw of undefined"

/-- The mutator body of `updateContent`'s `update(contentKey, ...)` call.
`prevContent` is the current store value (`none` models `undefined`; the
spread `{ ...prevContent }` of `undefined` yields `{}`). -/
def updMutator (route : Option String) (clientPrevContent : Option String)
    (parsed : ContentRecord) (prevContent : Option Collection) : MutatorResult :=
  let copied := prevContent.getD []
  match route with
  | none => .err (some { code := .CONTENT_MISSING_FIELD, message := missingFieldMsg })
      missingFieldMsg
  | some r =>
    let clean := cleanRoute r
    match clientPrevContent with
    | some cpc =>
      match getKey copied clean with
      | none => .err none rawOfUndefinedMsg
      | some record =>
        if cpc ≠ record.raw then
          .err (some { code := .CONTENT_HAS_CHANGED, message := hasChangedMsg clean })
            (hasChangedMsg clean)
        else .ok (setKey copied clean parsed)
    | none => .ok (setKey copied clean parsed)

/-- `updateContent(jwt, content, clientPrevContent = null)`.  Returns the JS
outcome (`ok none` = success, i.e. the function falls off the end returning
`undefined`; `ok (some e)` = the structured error returned from the catch
block; `thrown` = an exception escaping the function, which happens only on
authentication failure here) paired with the resulting store state.  The
store's `update` aborts, leaving the state unchanged, when the mutator
throws; the catch block then returns `potentialError` if it was set and the
`UNKNOWN_ERROR` fallback built from the thrown message otherwise. -/
def updateContent (fmF : String → FMResult) (render : String → String)
    (authOk : Bool) (content : String) (clientPrevContent : Option String)
    (store : Option Collection) : JsOutcome (Option ErrValue) × Option Collection :=
  if authOk then
    let parsed := parseMDLocal fmF render content
    let route := parsed.attributes.route
    match updMutator route clientPrevContent parsed store with
    | .ok next => (.ok none, some next)
    | .err potentialError msg =>
      (.ok (some (potentialError.getD { code := .UNKNOWN_ERROR, message := msg })), store)
  else (.thrown "invalid jwt", store)

/-- `get(contentKey)` on the backing store state. -/
def dbGet (store : Option Collection) : Option Collection := store

/-- `remove(contentKey)` on the backing store state. -/
def dbRemove (_store : Option Collection) : Option Collection := none

/-- `create(contentKey, v)` on the backing store state. -/
def dbCreate (v : Collection) (_store : Option Collection) : Option Collection :=
  some v

/-- `getContent()`: fetch the collection; when the store has nothing at the
content key, remove first ("just in case"), create an empty object, and
return the empty object.  Returns the value together with the new store
state. -/
def getContent (store : Option Collection) : Collection × Option Collection :=
  match dbGet store with
  | none => ([], dbCreate [] (dbRemove store))
  | some storedContent => (storedContent, store)

/-- `getContentMeta()`: list the `attributes` of every record. -/
def getContentMeta (store : Option Collection) : List Attributes × Option Collection :=
  let loaded := getContent store
  (loaded.1.map (fun p => p.2.attributes), loaded.2)

/-- The scan loop of `getContentByRoute`: walk the records in key order and
return the first one whose declared route normalizes like the query; a
record with no `route` attribute makes `cleanRoute(attributes.route)` throw
a `TypeError`; reaching the end throws the not-found `Error`. -/
def scanByRoute : Collection → String → JsOutcome ContentRecord
  | [], q => .thrown ("No content found for route: \"" ++ q ++ "\"")
  | (_, record) :: rest, q =>
    match record.attributes.route with
    | none => .thrown "Cannot read property replace of undefined"
    | some ar =>
      if cleanRoute ar = cleanRoute q then .ok record else scanByRoute rest q

/-- `getContentByRoute(jwt, route)`: load the collection (lazily creating
it) and scan for a record matching the normalized route.  The not-found
case is a thrown `Error`, not a returned value. -/
def getContentByRoute (authOk : Bool) (route : String)
    (store : Option Collection) : JsOutcome ContentRecord × Option Collection :=
  if authOk then
    let loaded := getContent store
    (scanByRoute loaded.1 route, loaded.2)
  else (.thrown "invalid jwt", store)

/-- Invariant of collections reachable through the update protocol: every
record sits at the key obtained by normalizing its own declared route. -/
def routeInv (c : Collection) : Prop :=
  ∀ p ∈ c, ∃ r, p.2.attributes.route = some r ∧ p.1 = cleanRoute r

-- Concrete fixtures used by the witnesses and counterexamples.

/-- A frontmatter parser result declaring route `Hello World`. -/
def wAttrs : Attributes := { route := some "Hello World" }

/-- A concrete frontmatter parser: every input declares route `Hello World`. -/
def wFm : String → FMResult := fun s => { attributes := wAttrs, body := s }

/-- A concrete frontmatter parser whose output carries no route key. -/
def wFmNone : String → FMResult := fun s => { attributes := { route := none }, body := s }

/-- A concrete rendering pipeline (identity on the body). -/
def wRender : String → String := fun s => s

/-- A stored record with raw text `A` at route `Hello World`. -/
def wRecA : ContentRecord := { attributes := wAttrs, parsed := "A", raw := "A" }

/-- A collection holding `wRecA` at the normalized key `hello-world`. -/
def wCol : Collection := [("hello-world", wRecA)]

-- Route-normalizer lemmas.

lemma replaceWsAux_true_eq (cs : List Char) :
    replaceWsAux true cs = replaceWsAux false (cs.dropWhile jsWhitespace) := by
  induction cs with
  | nil => simp [replaceWsAux, List.dropWhile]
  | cons c cs ih =>
    by_cases hc : jsWhitespace c
    · simp [replaceWsAux, hc, List.dropWhile_cons_of_pos, ih]
    · simp [replaceWsAux, hc, List.dropWhile_cons_of_neg]

lemma replaceWs_eq_collapseRuns (l : List Char) :
    replaceWsAux false l = collapseRuns l := by
  suffices H : ∀ n (l : List Char), l.length ≤ n → replaceWsAux false l = collapseRuns l from
    H l.length l le_rfl
  intro n
  induction n with
  | zero =>
    intro l h
    have : l = [] := List.eq_nil_of_length_eq_zero (Nat.le_zero.mp h)
    subst this
    simp [replaceWsAux, collapseRuns]
  | succ n ih =>
    intro l h
    cases l with
    | nil => simp [replaceWsAux, collapseRuns]
    | cons c cs =>
      by_cases hc : jsWhitespace c
      · have hd : replaceWsAux false (c :: cs) = '-' :: replaceWsAux true cs := by
          simp [replaceWsAux, hc]
        rw [hd, replaceWsAux_true_eq, collapseRuns, if_pos hc]
        have hlen := (List.dropWhile_sublist jsWhitespace (l := cs)).length_le
        simp only [List.length_cons] at h
        exact congrArg (fun t => '-' :: t) (ih _ (by omega))
      · have hd : replaceWsAux false (c :: cs) = c :: replaceWsAux false cs := by
          simp [replaceWsAux, hc]
        rw [hd, collapseRuns, if_neg hc]
        simp only [List.length_cons] at h
        exact congrArg (fun t => c :: t) (ih cs (by omega))

lemma not_ws_of_mem_replaceWsAux :
    ∀ (l : List Char) (b : Bool), ∀ c' ∈ replaceWsAux b l, jsWhitespace c' = false := by
  intro l
  induction l with
  | nil => intro b c' h; simp [replaceWsAux] at h
  | cons c cs ih =>
    intro b c' h
    by_cases hc : jsWhitespace c
    · cases b with
      | true =>
        simp only [replaceWsAux, hc, if_pos, if_true] at h
        exact ih true c' h
      | false =>
        simp only [replaceWsAux, hc, if_true, if_false] at h
        rcases List.mem_cons.mp h with h1 | h2
        · subst h1; decide
        · exact ih true c' h2
    · simp only [replaceWsAux, hc, if_false] at h
      rcases List.mem_cons.mp h with h1 | h2
      · subst h1
        simpa using hc
      · exact ih false c' h2

lemma replaceWsAux_eq_self (l : List Char)
    (h : ∀ c ∈ l, jsWhitespace c = false) : replaceWsAux false l = l := by
  induction l with
  | nil => rfl
  | cons c cs ih =>
    have hc : jsWhitespace c = false := h c (List.mem_cons_self c cs)
    simp only [replaceWsAux, hc, if_false, Bool.false_eq_true]
    exact congrArg (fun t => c :: t) (ih (fun c' hc' => h c' (List.mem_cons_of_mem c hc')))

lemma char_toNat_ofNat {n : Nat} (h : n < 55296) : (Char.ofNat n).toNat = n := by
  have hv : Nat.isValidChar n := Or.inl h
  rw [Char.ofNat, dif_pos hv]
  simp [Char.ofNatAux, Char.toNat, UInt32.toNat]

lemma toLower_toNat_of_upper {c : Char} (h1 : 65 ≤ c.toNat) (h2 : c.toNat ≤ 90) :
    (Char.toLower c).toNat = c.toNat + 32 := by
  rw [Char.toLower, if_pos ⟨h1, h2⟩]
  exact char_toNat_ofNat (by omega)

lemma toLower_eq_of_not_upper {c : Char} (h : ¬(65 ≤ c.toNat ∧ c.toNat ≤ 90)) :
    Char.toLower c = c := by
  rw [Char.toLower, if_neg (fun hcon => h ⟨hcon.1, hcon.2⟩)]

lemma toLower_toLower (c : Char) : Char.toLower (Char.toLower c) = Char.toLower c := by
  by_cases h : 65 ≤ c.toNat ∧ c.toNat ≤ 90
  · have hm := toLower_toNat_of_upper h.1 h.2
    exact toLower_eq_of_not_upper (by omega)
  · simp only [toLower_eq_of_not_upper h]

lemma jsWhitespace_iff_toNat (c : Char) : jsWhitespace c = true ↔
    (c.toNat = 9 ∨ c.toNat = 10 ∨ c.toNat = 11 ∨ c.toNat = 12 ∨ c.toNat = 13 ∨
    c.toNat = 32 ∨ c.toNat = 160 ∨ c.toNat = 5760 ∨
    (8192 ≤ c.toNat ∧ c.toNat ≤ 8202) ∨ c.toNat = 8232 ∨ c.toNat = 8233 ∨
    c.toNat = 8239 ∨ c.toNat = 8287 ∨ c.toNat = 12288 ∨ c.toNat = 65279) := by
  simp [jsWhitespace]

lemma toLower_not_ws {c : Char} (h : jsWhitespace c = false) :
    jsWhitespace (Char.toLower c) = false := by
  by_cases hu : 65 ≤ c.toNat ∧ c.toNat ≤ 90
  · have hm := toLower_toNat_of_upper hu.1 hu.2
    rw [Bool.eq_false_iff]
    intro hw
    have := (jsWhitespace_iff_toNat _).mp hw
    omega
  · rw [toLower_eq_of_not_upper hu]
    exact h

lemma map_toLower_idem (l : List Char) :
    (l.map Char.toLower).map Char.toLower = l.map Char.toLower := by
  rw [List.map_map]
  exact List.map_congr_left (fun a _ => toLower_toLower a)

lemma cleanRoute_idem (s : String) : cleanRoute (cleanRoute s) = cleanRoute s := by
  show cleanRoute ⟨(replaceWsAux false s.data).map Char.toLower⟩ = _
  have hfree : ∀ c ∈ (replaceWsAux false s.data).map Char.toLower, jsWhitespace c = false := by
    intro c hc
    rcases List.mem_map.mp hc with ⟨c0, hc0, rfl⟩
    exact toLower_not_ws (not_ws_of_mem_replaceWsAux _ false c0 hc0)
  show String.mk ((replaceWs ((replaceWsAux false s.data).map Char.toLower)).map Char.toLower) = _
  rw [replaceWs, replaceWsAux_eq_self _ hfree, map_toLower_idem]
  rfl

-- Repository lemmas.

lemma getKey_setKey_self (c : Collection) (k : String) (v : ContentRecord) :
    getKey (setKey c k v) k = some v := by
  induction c with
  | nil => simp [setKey, getKey]
  | cons p rest ih =>
    obtain ⟨k', v'⟩ := p
    by_cases h : k' = k
    · simp [setKey, h, getKey]
    · simp [setKey, h, getKey, ih]

lemma getKey_setKey_ne (c : Collection) (k k' : String) (v : ContentRecord)
    (h : k' ≠ k) : getKey (setKey c k v) k' = getKey c k' := by
  have hkk : ¬ k = k' := fun he => h he.symm
  induction c with
  | nil =>
    show (if k = k' then some v else getKey [] k') = getKey [] k'
    rw [if_neg hkk]
  | cons p rest ih =>
    obtain ⟨k0, v0⟩ := p
    by_cases h0 : k0 = k
    · subst h0
      show getKey (if k0 = k0 then (k0, v) :: rest else (k0, v0) :: setKey rest k0 v) k' = _
      rw [if_pos rfl]
      show (if k0 = k' then some v else getKey rest k') =
        (if k0 = k' then some v0 else getKey rest k')
      rw [if_neg hkk, if_neg hkk]
    · show getKey (if k0 = k then (k, v) :: rest else (k0, v0) :: setKey rest k v) k' = _
      rw [if_neg h0]
      show (if k0 = k' then some v0 else getKey (setKey rest k v) k') =
        (if k0 = k' then some v0 else getKey rest k')
      by_cases h1 : k0 = k'
      · rw [if_pos h1, if_pos h1]
      · rw [if_neg h1, if_neg h1, ih]

lemma updMutator_ok_eq {r : String} {prev : Option String} {parsed : ContentRecord}
    {col : Collection} {next : Collection}
    (h : updMutator (some r) prev parsed (some col) = .ok next) :
    next = setKey col (cleanRoute r) parsed := by
  cases prev with
  | none =>
    simp only [updMutator, Option.getD_some] at h
    exact (MutatorResult.ok.injEq _ _ ▸ congrArg id h).symm
  | some cpc =>
    simp only [updMutator, Option.getD_some] at h
    rcases hk : getKey col (cleanRoute r) with _ | record
    · rw [hk] at h
      simp at h
    · rw [hk] at h
      by_cases hne : cpc = record.raw
      · simp [hne] at h
        exact h.symm
      · simp [hne] at h

lemma updateContent_success {fmF : String → FMResult} {render : String → String}
    {content : String} {prev : Option String} {store : Option Collection}
    (h : (updateContent fmF render true content prev store).1 = .ok none) :
    ∃ next,
      updMutator (parseMDLocal fmF render content).attributes.route prev
        (parseMDLocal fmF render content) store = .ok next ∧
      (updateContent fmF render true content prev store).2 = some next := by
  rcases hm : updMutator (parseMDLocal fmF render content).attributes.route prev
      (parseMDLocal fmF render content) store with next | ⟨pe, msg⟩
  · exact ⟨next, rfl, by simp [updateContent, hm]⟩
  · exfalso
    simp [updateContent, hm] at h

lemma scanByRoute_setKey (col : Collection) (hInv : routeInv col)
    {parsed : ContentRecord} {r q : String}
    (hr : parsed.attributes.route = some r) (hq : cleanRoute q = cleanRoute r) :
    scanByRoute (setKey col (cleanRoute r) parsed) q = .ok parsed := by
  induction col with
  | nil =>
    show scanByRoute [(cleanRoute r, parsed)] q = _
    simp [scanByRoute, hr, hq.symm]
  | cons p rest ih =>
    obtain ⟨k0, rec0⟩ := p
    obtain ⟨r0, hr0, hk0⟩ := hInv (k0, rec0) (List.mem_cons_self _ _)
    have hr0' : rec0.attributes.route = some r0 := hr0
    have hk0' : k0 = cleanRoute r0 := hk0
    by_cases h0 : k0 = cleanRoute r
    · show scanByRoute
        (if k0 = cleanRoute r then (cleanRoute r, parsed) :: rest
         else (k0, rec0) :: setKey rest (cleanRoute r) parsed) q = _
      rw [if_pos h0]
      simp [scanByRoute, hr, hq.symm]
    · show scanByRoute
        (if k0 = cleanRoute r then (cleanRoute r, parsed) :: rest
         else (k0, rec0) :: setKey rest (cleanRoute r) parsed) q = _
      rw [if_neg h0]
      have hne : ¬ cleanRoute r0 = cleanRoute q := by
        intro he
        exact h0 (hk0'.trans (he.trans hq))
      simp only [scanByRoute, hr0']
      rw [if_neg hne]
      exact ih (fun p hp => hInv p (List.mem_cons_of_mem _ hp))

lemma scanByRoute_no_match (q : String) (col : Collection)
    (h : ∀ p ∈ col, ∀ r, p.2.attributes.route = some r → cleanRoute r ≠ cleanRoute q) :
    ∃ m, scanByRoute col q = .thrown m := by
  induction col with
  | nil => exact ⟨_, rfl⟩
  | cons p rest ih =>
    obtain ⟨k0, rec0⟩ := p
    rcases hr0 : rec0.attributes.route with _ | r0
    · exact ⟨"Cannot read property replace of undefined", by simp [scanByRoute, hr0]⟩
    · have hne := h (k0, rec0) (List.mem_cons_self _ _) r0 hr0
      obtain ⟨m, hm⟩ := ih (fun p hp => h p (List.mem_cons_of_mem _ hp))
      exact ⟨m, by simp only [scanByRoute, hr0]; rw [if_neg hne]; exact hm⟩

example : cleanRoute ⟨['H', 'e', ' ', ' ', 'L', 'o']⟩ = ⟨['h', 'e', '-', 'l', 'o']⟩ := by decide
example : cleanRoute (cleanRoute ⟨['A', ' ', 'B']⟩) = cleanRoute ⟨['A', ' ', 'B']⟩ := by decide
example : cleanRoute "Hello World" = "hello-world" := by decide
example : updateContent wFm wRender true "new" (some "B") (some wCol) =
    (.ok (some { code := .CONTENT_HAS_CHANGED, message := hasChangedMsg "hello-world" }),
     some wCol) := by decide
example : updateContent wFm wRender true "new" (some "x") (some []) =
    (.ok (some { code := .UNKNOWN_ERROR, message := rawOfUndefinedMsg }), some []) := by decide
example : updateContent wFmNone wRender true "new" none (some wCol) =
    (.ok (some { code := .CONTENT_MISSING_FIELD, message := missingFieldMsg }), some wCol) := by
  decide
example : updateContent wFm wRender true "A" (some "A")
    ((updateContent wFm wRender true "A" (some "A") (some wCol)).2) =
    (.ok none, some [("hello-world", parseMDLocal wFm wRender "A")]) := by decide
example : getContentByRoute true "missing" (some []) =
    (.thrown "No content found for route: \"missing\"", some []) := by decide
example : getContentByRoute true "HELLO  WORLD"
    ((updateContent wFm wRender true "new" none (some wCol)).2) =
    (.ok (parseMDLocal wFm wRender "new"), some [("hello-world", parseMDLocal wFm wRender "new")]) := by
  decide

-- Claim theorems.

/-- C1: when a record with raw value `A` is stored at the key obtained by
normalizing route `R`, an `updateContent` whose content's frontmatter route
normalizes to that same key and whose `expectedPriorRaw = B` with `B ≠ A`
returns the structured `CONTENT_HAS_CHANGED` error and leaves the stored
collection (in particular the record at that key) unchanged. -/
theorem updateContent_stale_raw_fails (fmF : String → FMResult)
    (render : String → String) (content B : String) (col : Collection)
    (r : String) (record : ContentRecord)
    (hroute : (parseMDLocal fmF render content).attributes.route = some r)
    (hrec : getKey col (cleanRoute r) = some record)
    (hne : B ≠ record.raw) :
    updateContent fmF render true content (some B) (some col) =
      (.ok (some { code := .CONTENT_HAS_CHANGED,
                   message := hasChangedMsg (cleanRoute r) }),
       some col) := by
  have hm : updMutator (parseMDLocal fmF render content).attributes.route
      (some B) (parseMDLocal fmF render content) (some col) =
      .err (some { code := .CONTENT_HAS_CHANGED,
                   message := hasChangedMsg (cleanRoute r) })
        (hasChangedMsg (cleanRoute r)) := by
    rw [hroute]
    simp only [updMutator, Option.getD_some]
    rw [hrec]
    simp [hne]
  simp [updateContent, hm]

/-- Witness for C1 at a concrete stored record and stale expectation. -/
theorem updateContent_stale_raw_fails_witness :
    updateContent wFm wRender true "new" (some "B") (some wCol) =
      (.ok (some { code := .CONTENT_HAS_CHANGED,
                   message := hasChangedMsg (cleanRoute "Hello World") }),
       some wCol) :=
  updateContent_stale_raw_fails wFm wRender "new" "B" wCol "Hello World" wRecA
    rfl (by decide) (by decide)

/-- C2: content whose parsed frontmatter has no `route` key makes
`updateContent` (for any `expectedPriorRaw` and any store state) return the
structured `CONTENT_MISSING_FIELD` error, with the stored collection
unchanged. -/
theorem updateContent_missing_route_fails (fmF : String → FMResult)
    (render : String → String) (content : String) (prev : Option String)
    (store : Option Collection)
    (hroute : (parseMDLocal fmF render content).attributes.route = none) :
    updateContent fmF render true content prev store =
      (.ok (some { code := .CONTENT_MISSING_FIELD, message := missingFieldMsg }),
       store) := by
  have hm : updMutator (parseMDLocal fmF render content).attributes.route prev
      (parseMDLocal fmF render content) store =
      .err (some { code := .CONTENT_MISSING_FIELD, message := missingFieldMsg })
        missingFieldMsg := by
    rw [hroute]
    simp [updMutator]
  simp [updateContent, hm]

/-- Witness for C2 with a concrete routeless frontmatter parse. -/
theorem updateContent_missing_route_fails_witness :
    updateContent wFmNone wRender true "body" (some "prior") (some wCol) =
      (.ok (some { code := .CONTENT_MISSING_FIELD, message := missingFieldMsg }),
       some wCol) :=
  updateContent_missing_route_fails wFmNone wRender "body" (some "prior")
    (some wCol) rfl

/-- C3 counterexample: with a non-null `expectedPriorRaw` and no record at
the parsed route's key, the call does not return `CONTENT_HAS_CHANGED`; the
property access `copied[clean].raw` throws a `TypeError` before
`potentialError` is assigned, so the catch-all returns `UNKNOWN_ERROR`. -/
theorem missing_record_not_has_changed_cex :
    (updateContent wFm wRender true "new" (some "x") (some [])).1 =
      .ok (some { code := .UNKNOWN_ERROR, message := rawOfUndefinedMsg }) ∧
    ErrCode.UNKNOWN_ERROR ≠ ErrCode.CONTENT_HAS_CHANGED := by
  decide

/-- C3 amended: with a non-null `expectedPriorRaw` and no record stored at
the key the parsed route normalizes to, `updateContent` fails with the
structured `UNKNOWN_ERROR` (carrying the `TypeError` message from reading
`raw` of the missing record), and the collection is unchanged. -/
theorem missing_record_unknown_error (fmF : String → FMResult)
    (render : String → String) (content B : String) (col : Collection)
    (r : String)
    (hroute : (parseMDLocal fmF render content).attributes.route = some r)
    (hrec : getKey col (cleanRoute r) = none) :
    updateContent fmF render true content (some B) (some col) =
      (.ok (some { code := .UNKNOWN_ERROR, message := rawOfUndefinedMsg }),
       some col) := by
  have hm : updMutator (parseMDLocal fmF render content).attributes.route
      (some B) (parseMDLocal fmF render content) (some col) =
      .err none rawOfUndefinedMsg := by
    rw [hroute]
    simp only [updMutator, Option.getD_some]
    rw [hrec]
  simp [updateContent, hm, Option.getD]

/-- Witness for the amended C3 on the empty stored collection. -/
theorem missing_record_unknown_error_witness :
    updateContent wFm wRender true "new" (some "x") (some []) =
      (.ok (some { code := .UNKNOWN_ERROR, message := rawOfUndefinedMsg }),
       some []) :=
  missing_record_unknown_error wFm wRender "new" "x" [] "Hello World" rfl
    (by decide)

/-- C4: with `expectedPriorRaw = null` and content that parses to a record
declaring route `r`, the update succeeds and the record at the normalized
key is replaced wholesale by the newly parsed record, whatever was stored
there before. -/
theorem updateContent_null_prev_succeeds (fmF : String → FMResult)
    (render : String → String) (content : String) (col : Collection)
    (r : String)
    (hroute : (parseMDLocal fmF render content).attributes.route = some r) :
    updateContent fmF render true content none (some col) =
      (.ok none,
       some (setKey col (cleanRoute r) (parseMDLocal fmF render content))) ∧
    getKey (setKey col (cleanRoute r) (parseMDLocal fmF render content))
      (cleanRoute r) = some (parseMDLocal fmF render content) := by
  refine ⟨?_, getKey_setKey_self _ _ _⟩
  have hm : updMutator (parseMDLocal fmF render content).attributes.route
      none (parseMDLocal fmF render content) (some col) =
      .ok (setKey col (cleanRoute r) (parseMDLocal fmF render content)) := by
    rw [hroute]
    simp [updMutator]
  simp [updateContent, hm]

/-- Witness for C4: an unconditional overwrite of the stored record. -/
theorem updateContent_null_prev_succeeds_witness :
    updateContent wFm wRender true "new" none (some wCol) =
      (.ok none,
       some (setKey wCol (cleanRoute "Hello World")
         (parseMDLocal wFm wRender "new"))) ∧
    getKey (setKey wCol (cleanRoute "Hello World") (parseMDLocal wFm wRender "new"))
      (cleanRoute "Hello World") = some (parseMDLocal wFm wRender "new") :=
  updateContent_null_prev_succeeds wFm wRender "new" wCol "Hello World" rfl

/-- C5: the route normalizer agrees with the spec's description — every
maximal whitespace run becomes a single hyphen and the result is
lower-cased — and it is idempotent on every string. -/
theorem cleanRoute_spec_and_idem :
    (∀ s : String, cleanRoute s = specNormalize s) ∧
    (∀ r : String, cleanRoute (cleanRoute r) = cleanRoute r) := by
  constructor
  · intro s
    show String.mk ((replaceWs s.data).map Char.toLower) = _
    rw [replaceWs, replaceWs_eq_collapseRuns]
    rfl
  · exact cleanRoute_idem

/-- C6: after a successful `updateContent` storing content that declares
route `r` into a collection satisfying the key invariant, looking the
content up by any string normalizing like `r` returns the stored record. -/
theorem content_roundTrip (fmF : String → FMResult) (render : String → String)
    (content q : String) (prev : Option String) (col : Collection) (r : String)
    (hInv : routeInv col)
    (hroute : (parseMDLocal fmF render content).attributes.route = some r)
    (hq : cleanRoute q = cleanRoute r)
    (hsucc : (updateContent fmF render true content prev (some col)).1 = .ok none) :
    (getContentByRoute true q
      (updateContent fmF render true content prev (some col)).2).1 =
      .ok (parseMDLocal fmF render content) := by
  obtain ⟨next, hm, hsnd⟩ := updateContent_success hsucc
  rw [hroute] at hm
  rw [hsnd, updMutator_ok_eq hm]
  exact scanByRoute_setKey col hInv hroute hq

/-- Witness for C6: store under `Hello World`, fetch by `HELLO  WORLD`. -/
theorem content_roundTrip_witness :
    (getContentByRoute true "HELLO  WORLD"
      (updateContent wFm wRender true "new" none (some wCol)).2).1 =
      .ok (parseMDLocal wFm wRender "new") :=
  content_roundTrip wFm wRender "new" "HELLO  WORLD" none wCol "Hello World"
    (by
      intro p hp
      simp only [wCol, List.mem_singleton] at hp
      subst hp
      exact ⟨"Hello World", rfl, by decide⟩)
    rfl (by decide) (by decide)

/-- C7 counterexample: a lookup matching no record does not yield a
`ROUTE_NOT_FOUND` result value — it throws the not-found `Error`. -/
theorem route_not_found_is_thrown_cex :
    (getContentByRoute true "missing" (some [])).1 =
      .thrown "No content found for route: \"missing\"" := by
  decide

/-- C7 amended: once authenticated, `updateContent` reports every failure
(`CONTENT_MISSING_FIELD`, `CONTENT_HAS_CHANGED`, `UNKNOWN_ERROR`) as a
returned discriminated value carrying a `code`; but `getContentByRoute`
with no matching record throws an exception instead of returning a
`ROUTE_NOT_FOUND` result value. -/
theorem error_propagation_policy :
    (∀ (fmF : String → FMResult) (render : String → String) (content : String)
        (prev : Option String) (store : Option Collection),
      ∃ o, (updateContent fmF render true content prev store).1 = JsOutcome.ok o) ∧
    (∀ (q : String) (col : Collection),
      (∀ p ∈ col, ∀ r, p.2.attributes.route = some r → cleanRoute r ≠ cleanRoute q) →
      ∃ m, (getContentByRoute true q (some col)).1 = JsOutcome.thrown m) := by
  constructor
  · intro fmF render content prev store
    rcases hm : updMutator (parseMDLocal fmF render content).attributes.route prev
        (parseMDLocal fmF render content) store with next | ⟨pe, msg⟩
    · exact ⟨none, by simp [updateContent, hm]⟩
    · exact ⟨some (pe.getD { code := .UNKNOWN_ERROR, message := msg }),
        by simp [updateContent, hm]⟩
  · intro q col h
    obtain ⟨m, hmth⟩ := scanByRoute_no_match q col h
    exact ⟨m, hmth⟩

/-- Witness for the amended C7: the empty collection yields a throw. -/
theorem error_propagation_policy_witness :
    ∃ m, (getContentByRoute true "missing" (some [])).1 = JsOutcome.thrown m :=
  error_propagation_policy.2 "missing" []
    (by intro p hp; simp at hp)

/-- C8: a read against a store with no entry removes first, creates exactly
one empty collection (returned as the loaded value), a subsequent metadata
listing is empty, and a read against an existing entry returns it without
creating anything (state unchanged). -/
theorem lazy_init_behavior :
    getContent none = ([], dbCreate [] (dbRemove none)) ∧
    (getContentMeta ((getContent none).2)).1 = [] ∧
    (∀ c : Collection, getContent (some c) = (c, some c)) ∧
    (∀ q : String, (getContentByRoute true q none).2 = some []) :=
  ⟨rfl, rfl, fun _ => rfl, fun _ => rfl⟩

/-- C9 counterexample: when the new content's raw text equals the stored
raw (`"A"`), the first update with `expectedPriorRaw = "A"` succeeds and so
does a second identical call — it does not fail `CONTENT_HAS_CHANGED`. -/
theorem second_identical_update_succeeds_cex :
    (updateContent wFm wRender true "A" (some "A") (some wCol)).1 =
      JsOutcome.ok none ∧
    (updateContent wFm wRender true "A" (some "A")
      ((updateContent wFm wRender true "A" (some "A") (some wCol)).2)).1 =
      JsOutcome.ok none := by
  decide

/-- C9 amended: for a stored record with raw `A` at the parsed route's key,
an update with matching `expectedPriorRaw = A` succeeds and replaces the
record; a second identical call then fails `CONTENT_HAS_CHANGED` provided
the new content's raw text differs from `A`. -/
theorem update_then_stale_retry (fmF : String → FMResult)
    (render : String → String) (content : String) (col : Collection)
    (r : String) (record : ContentRecord)
    (hroute : (parseMDLocal fmF render content).attributes.route = some r)
    (hrec : getKey col (cleanRoute r) = some record)
    (hne : content ≠ record.raw) :
    updateContent fmF render true content (some record.raw) (some col) =
      (.ok none,
       some (setKey col (cleanRoute r) (parseMDLocal fmF render content))) ∧
    (updateContent fmF render true content (some record.raw)
      (some (setKey col (cleanRoute r) (parseMDLocal fmF render content)))).1 =
      .ok (some { code := .CONTENT_HAS_CHANGED,
                  message := hasChangedMsg (cleanRoute r) }) := by
  constructor
  · have hm : updMutator (parseMDLocal fmF render content).attributes.route
        (some record.raw) (parseMDLocal fmF render content) (some col) =
        .ok (setKey col (cleanRoute r) (parseMDLocal fmF render content)) := by
      rw [hroute]
      simp only [updMutator, Option.getD_some]
      rw [hrec]
      simp
    simp [updateContent, hm]
  · have hm2 : updMutator (parseMDLocal fmF render content).attributes.route
        (some record.raw) (parseMDLocal fmF render content)
        (some (setKey col (cleanRoute r) (parseMDLocal fmF render content))) =
        .err (some { code := .CONTENT_HAS_CHANGED,
                     message := hasChangedMsg (cleanRoute r) })
          (hasChangedMsg (cleanRoute r)) := by
      rw [hroute]
      simp only [updMutator, Option.getD_some]
      rw [getKey_setKey_self]
      have hcond : record.raw ≠ (parseMDLocal fmF render content).raw :=
        fun he => hne he.symm
      simp [hcond]
    simp [updateContent, hm2]

/-- Witness for the amended C9 with changed content text. -/
theorem update_then_stale_retry_witness :
    updateContent wFm wRender true "new" (some wRecA.raw) (some wCol) =
      (.ok none,
       some (setKey wCol (cleanRoute "Hello World")
         (parseMDLocal wFm wRender "new"))) ∧
    (updateContent wFm wRender true "new" (some wRecA.raw)
      (some (setKey wCol (cleanRoute "Hello World")
        (parseMDLocal wFm wRender "new")))).1 =
      .ok (some { code := .CONTENT_HAS_CHANGED,
                  message := hasChangedMsg (cleanRoute "Hello World") }) :=
  update_then_stale_retry wFm wRender "new" wCol "Hello World" wRecA rfl
    (by decide) (by decide)

/-- C10: a successful update touches only the parsed route's normalized
key; the record stored at every other key is exactly what was there before
the call. -/
theorem update_frame (fmF : String → FMResult) (render : String → String)
    (content : String) (prev : Option String) (col : Collection)
    (k r : String)
    (hroute : (parseMDLocal fmF render content).attributes.route = some r)
    (hk : k ≠ cleanRoute r)
    (hsucc : (updateContent fmF render true content prev (some col)).1 = .ok none) :
    ∃ next,
      (updateContent fmF render true content prev (some col)).2 = some next ∧
      getKey next k = getKey col k := by
  obtain ⟨next, hm, hsnd⟩ := updateContent_success hsucc
  rw [hroute] at hm
  refine ⟨next, hsnd, ?_⟩
  rw [updMutator_ok_eq hm]
  exact getKey_setKey_ne col _ k _ hk

/-- Witness for C10 at a key distinct from the updated one. -/
theorem update_frame_witness :
    ∃ next,
      (updateContent wFm wRender true "new" none (some wCol)).2 = some next ∧
      getKey next "other" = getKey wCol "other" :=
  update_frame wFm wRender "new" none wCol "other" "Hello World" rfl
    (by decide) (by decide)
